import Mathlib

/-!
# imageserver: the wiring in `cmd/main.go`

A shallow embedding of `cmd/main.go`: the source resolver `getImgServer`, the
decorator stack built by `newServer`, and the HTTP handler configuration.
Go strings are lists of characters, byte slices are lists of naturals, the
filesystem and the codec registry are explicit parameters, and a Go panic is
an explicit outcome.
-/

set_option autoImplicit false

namespace ImageServer

/-! ## Paths (`path/filepath`, slash-separated) -/

/-- A Go string holding a path. -/
abbrev Path := List Char

/-- The components of a path between its `/` separators (`"a//b"` has the
components `a`, the empty one, and `b`). -/
def splitSlash : Path → List Path
  | [] => [[]]
  | c :: cs =>
    if c = '/' then [] :: splitSlash cs
    else
      match splitSlash cs with
      | [] => [[c]]
      | h :: t => (c :: h) :: t

/-- The components written back with single `/` separators. -/
def joinSlash : List Path → Path
  | [] => []
  | [a] => a
  | a :: b :: rest => a ++ '/' :: joinSlash (b :: rest)

/-- One step of `filepath.Clean` on the components kept so far: an empty
component and `.` are dropped; `..` removes the last kept component when
there is one that is not itself `..`, is kept when the path is not rooted,
and is dropped at the root; any other component is kept. -/
def cleanStep (rooted : Bool) (kept : List Path) (c : Path) : List Path :=
  if c = [] then kept
  else if c = ['.'] then kept
  else if c = ['.', '.'] then
    match kept.getLast? with
    | some top =>
      if top = ['.', '.'] then kept ++ [c] else kept.dropLast
    | none => if rooted then kept else kept ++ [c]
  else kept ++ [c]

/-- Whether the path starts with the separator. -/
def isRooted : Path → Bool
  | c :: _ => c == '/'
  | [] => false

/-- The components `filepath.Clean` keeps. -/
def cleanParts (p : Path) : List Path :=
  (splitSlash p).foldl (cleanStep (isRooted p)) []

/-- The cleaned path written out: `/` in front when rooted, `.` when nothing
is kept of an unrooted path. -/
def render (rooted : Bool) (kept : List Path) : Path :=
  if rooted then '/' :: joinSlash kept
  else if kept = [] then ['.'] else joinSlash kept

/-- Go's `filepath.Clean` for slash-separated paths, by components. -/
def Clean (p : Path) : Path :=
  render (isRooted p) (cleanParts p)

/-- Go's `filepath.Join`: the elements from the first non-empty one on are
joined with the separator and cleaned; all empty gives the empty string. -/
def Join : List Path → Path
  | [] => []
  | e :: rest =>
    if e = [] then Join rest
    else Clean (joinSlash (e :: rest))

/-- A path lies under a root directory when it is the cleaned root itself or
starts with the cleaned root followed by a separator. -/
def underRoot (root p : Path) : Prop :=
  p = Clean root ∨ (Clean root ++ ['/']) <+: p

instance (root p : Path) : Decidable (underRoot root p) := by
  unfold underRoot; exact inferInstance

/-! ## Parameters (`imageserver.Params`) -/

/-- A value stored in the parameter set (`interface{}` in Go). -/
inductive Value where
  | str (s : List Char)
  | int (n : Int)
  | bool (b : Bool)
  deriving DecidableEq, Repr

/-- The parameter set: `map[string]interface{}`, as an association list. -/
abbrev Params := List (String × Value)

/-- Error numbers reported by the operating system. -/
abbrev Errno := Nat

/-- The error number of "no such file or directory". -/
def ENOENT : Errno := 2

/-- The error number of "permission denied". -/
def EACCES : Errno := 13

/-- The error number of "not a directory". -/
def ENOTDIR : Errno := 20

/-- The error number of "is a directory". -/
def EISDIR : Errno := 21

/-- The error number of "too many open files". -/
def EMFILE : Errno := 24

/-- The Go error values that occur in `getImgServer`. -/
inductive GoError where
  /-- `*imageserver.ParamError` for the named parameter. -/
  | paramError (param : String)
  /-- `*imageserver.ImageError` with its message. -/
  | imageError (message : String)
  /-- `*os.PathError` of a failed `open` or `read`. -/
  | pathError (path : Path) (errno : Errno)
  /-- The error of `image.DecodeConfig`. -/
  | decodeError
  deriving DecidableEq, Repr

/-- The method `Params.GetString`: the value under the key when it is a
string, a parameter error when the key is unset or holds another type. -/
def Params.GetString (params : Params) (key : String) : Except GoError (List Char) :=
  match params.lookup key with
  | some (Value.str s) => Except.ok s
  | some _ => Except.error (GoError.paramError key)
  | none => Except.error (GoError.paramError key)

/-! ## Images, the filesystem and the process -/

/-- The structure `imageserver.Image`. -/
structure Image where
  Format : String
  Data : List Nat
  deriving DecidableEq, Repr

/-- What the filesystem holds at a path, as `os.Open` sees it. -/
inductive Entry where
  /-- `os.Open` fails with this error number. -/
  | openError (errno : Errno)
  /-- A directory: `os.Open` succeeds, reading from the handle fails. -/
  | directory
  /-- A regular file with its complete byte content. -/
  | regular (content : List Nat)
  deriving DecidableEq, Repr

/-- The state of the filesystem during one call. -/
structure FileSystem where
  /-- What is found at each path. -/
  entry : Path → Entry
  /-- A fault of `ioutil.ReadFile` on a path that is a regular file (an I/O
  error, no file descriptor left). -/
  readFault : Path → Option Errno

/-- The state of the process that the resolver touches. -/
structure Proc where
  /-- The open file handles, by the path each was opened at. -/
  handles : List Path
  /-- Every path opened so far, the latest first. -/
  opened : List Path
  deriving DecidableEq, Repr

/-- The function `os.IsNotExist` on the error of a failed open. -/
def IsNotExist (errno : Errno) : Bool := errno == ENOENT

/-- The function `os.Open`: a handle on what is at the path, which stays open
until it is closed, or the error. -/
def osOpen (fs : FileSystem) (path : Path) (proc : Proc) : Except Errno Entry × Proc :=
  match fs.entry path with
  | Entry.openError errno => (Except.error errno, proc)
  | e => (Except.ok e, { handles := path :: proc.handles, opened := path :: proc.opened })

/-- The function `image.DecodeConfig` on an open handle: the format name the
registered codecs detect from the header bytes, or an error (unknown format,
malformed header, or a handle that cannot be read). The codec registry
`detect` is a parameter. -/
def DecodeConfig (detect : List Nat → Option String) : Entry → Except GoError String
  | Entry.regular content =>
    match detect content with
    | some format => Except.ok format
    | none => Except.error GoError.decodeError
  | _ => Except.error GoError.decodeError

/-- The function `ioutil.ReadFile`: it opens the path, reads it to the end
and closes it again, so the set of open handles is unchanged. -/
def ReadFile (fs : FileSystem) (path : Path) (proc : Proc) : Except GoError (List Nat) × Proc :=
  match fs.entry path with
  | Entry.openError errno => (Except.error (GoError.pathError path errno), proc)
  | Entry.directory =>
    (Except.error (GoError.pathError path EISDIR), { proc with opened := path :: proc.opened })
  | Entry.regular content =>
    match fs.readFault path with
    | some errno => (Except.error (GoError.pathError path errno), proc)
    | none => (Except.ok content, { proc with opened := path :: proc.opened })

/-- How a call of a Go function of type `(*Image, error)` ends. -/
inductive Outcome where
  /-- It returns the pair `(im, err)`; `none` is `nil`. -/
  | returned (im : Option Image) (err : Option GoError)
  /-- It panics with the error. -/
  | panicked (err : GoError)
  deriving DecidableEq, Repr

/-- The flags of `main.go` (`flagCache`, `dirName`, `maxWidth`, `maxHeight`). -/
structure Config where
  flagCache : Int
  dirName : Path
  maxWidth : Int
  maxHeight : Int
  deriving DecidableEq, Repr

/-- The values the flags have when none is given on the command line. -/
def defaultConfig : Config :=
  { flagCache := 128 * (1 <<< 20)
    dirName := "upload".toList
    maxWidth := 1024 * 2
    maxHeight := 1024 * 2 }

/-- The server function inside `getImgServer`. -/
def getImgServer (cfg : Config) (fs : FileSystem) (detect : List Nat → Option String)
    (params : Params) (proc : Proc) : Outcome × Proc :=
  match params.GetString "source" with
  | Except.error err => (Outcome.returned none (some err), proc)
  | Except.ok source =>
    let filePath := Join [cfg.dirName, source]
    match osOpen fs filePath proc with
    | (Except.error errno, proc1) =>
      if IsNotExist errno then
        (Outcome.returned none (some (GoError.imageError "404")), proc1)
      else (Outcome.panicked (GoError.pathError filePath errno), proc1)
    | (Except.ok data, proc1) =>
      match DecodeConfig detect data with
      | Except.error err => (Outcome.panicked err, proc1)
      | Except.ok format =>
        match ReadFile fs filePath proc1 with
        | (Except.error err, proc2) => (Outcome.panicked err, proc2)
        | (Except.ok b, proc2) =>
          (Outcome.returned (some { Format := format, Data := b }) none, proc2)

/-! ## Processors and image handlers (`newServerImage`) -/

/-- The interpolation policies of `gift` that `main.go` names. -/
inductive Interpolation where
  | NearestNeighborInterpolation
  | CubicInterpolation
  deriving DecidableEq, Repr

/-- The resampling filters of `gift` that `main.go` names. -/
inductive Resampling where
  | NearestNeighborResampling
  | LanczosResampling
  deriving DecidableEq, Repr

/-- The processor values `main.go` builds. -/
inductive Processor where
  /-- `imageserver_image_crop.Processor`. -/
  | crop
  /-- `imageserver_image_gift.RotateProcessor`. -/
  | rotate (DefaultInterpolation : Interpolation)
  /-- `imageserver_image_gift.ResizeProcessor`. -/
  | resize (DefaultResampling : Resampling) (MaxWidth MaxHeight : Int)
  /-- `imageserver_image.ListProcessor`. -/
  | list (ps : List Processor)
  /-- `imageserver_image_gamma.NewCorrectionProcessor`. -/
  | correction (p : Processor) (enabled : Bool)

/-- The kind of a transform stage. -/
inductive Stage where
  | crop
  | rotate
  | resize
  deriving DecidableEq, Repr

mutual
/-- The transform stages a processor applies, in order. -/
def Processor.stages : Processor → List Stage
  | Processor.crop => [Stage.crop]
  | Processor.rotate _ => [Stage.rotate]
  | Processor.resize _ _ _ => [Stage.resize]
  | Processor.list ps => Processor.stagesList ps
  | Processor.correction p _ => p.stages
/-- The stages of a list of processors, in order. -/
def Processor.stagesList : List Processor → List Stage
  | [] => []
  | p :: ps => p.stages ++ Processor.stagesList ps
end

mutual
/-- The `(MaxWidth, MaxHeight)` bounds of the resize processors inside a
processor, in order. -/
def Processor.resizeBounds : Processor → List (Int × Int)
  | Processor.crop => []
  | Processor.rotate _ => []
  | Processor.resize _ w h => [(w, h)]
  | Processor.list ps => Processor.resizeBoundsList ps
  | Processor.correction p _ => p.resizeBounds
/-- The resize bounds inside a list of processors, in order. -/
def Processor.resizeBoundsList : List Processor → List (Int × Int)
  | [] => []
  | p :: ps => p.resizeBounds ++ Processor.resizeBoundsList ps
end

/-- The image handlers `main.go` builds. -/
inductive Handler where
  /-- `imageserver_image.Handler` with its processor: the static pipeline. -/
  | image (proc : Processor)
  /-- `imageserver_image_gif.Handler` with a `SimpleProcessor` around the
  given processor: the animated pipeline. -/
  | gif (proc : Processor)
  /-- `imageserver_image_gif.FallbackHandler`. -/
  | gifFallback (hdr : Handler) (fallback : Handler)

/-- The processor list of the static pipeline in `newServerImage`. -/
def basicProcessors (cfg : Config) : Processor :=
  Processor.list
    [ Processor.crop,
      Processor.rotate Interpolation.CubicInterpolation,
      Processor.resize Resampling.LanczosResampling cfg.maxWidth cfg.maxHeight ]

/-- The `basicHdr` of `newServerImage`. -/
def basicHdr (cfg : Config) : Handler :=
  Handler.image (Processor.correction (basicProcessors cfg) true)

/-- The processor list of the animated pipeline in `newServerImage`. -/
def gifProcessors (cfg : Config) : Processor :=
  Processor.list
    [ Processor.crop,
      Processor.rotate Interpolation.NearestNeighborInterpolation,
      Processor.resize Resampling.NearestNeighborResampling cfg.maxWidth cfg.maxHeight ]

/-- The `gifHdr` of `newServerImage`. -/
def gifHdr (cfg : Config) : Handler :=
  Handler.gifFallback (Handler.gif (gifProcessors cfg)) (basicHdr cfg)

/-! ## The server stack (`newServer`) -/

/-- The hash constructors passed to the library (`sha256.New`). -/
inductive HashAlg where
  | sha256
  deriving DecidableEq, Repr

/-- The server values `main.go` builds. -/
inductive Server where
  /-- The `ServerFunc` returned by `getImgServer`. -/
  | source
  /-- `imageserver.HandlerServer`. -/
  | handler (srv : Server) (hdr : Handler)
  /-- `imageserver.NewLimitServer(srv, limit)`. -/
  | limit (srv : Server) (limit : Int)
  /-- `imageserver_cache.Server` with an in-memory cache of the given byte
  budget and a params-hash key generator. -/
  | cache (srv : Server) (budget : Int) (keyGenerator : HashAlg)

/-- The function `newServerImage`. -/
def newServerImage (cfg : Config) (srv : Server) : Server :=
  Server.handler srv (gifHdr cfg)

/-- The function `newServerLimit`; `gomaxprocs` is `runtime.GOMAXPROCS(0)`. -/
def newServerLimit (gomaxprocs : Int) (srv : Server) : Server :=
  Server.limit srv (gomaxprocs * 2)

/-- The function `newServerCacheMemory`. -/
def newServerCacheMemory (cfg : Config) (srv : Server) : Server :=
  if cfg.flagCache ≤ 0 then srv
  else Server.cache srv cfg.flagCache HashAlg.sha256

/-- The function `newServer`. -/
def newServer (cfg : Config) (gomaxprocs : Int) : Server :=
  let srv := Server.source
  let srv := newServerImage cfg srv
  let srv := newServerLimit gomaxprocs srv
  let srv := newServerCacheMemory cfg srv
  srv

/-! ## The HTTP handler (`newImageHTTPHandler`) -/

/-- The request parsers `main.go` lists. -/
inductive Parser where
  | SourcePathParser
  | CropParser
  | RotateParser
  | ResizeParser
  | FormatParser
  | QualityParser
  | CorrectionParser
  deriving DecidableEq, Repr

/-- The HTTP handler values `main.go` builds. -/
inductive HTTPHandler where
  /-- `imageserver_http.Handler`; `etagFunc` is the hash constructor given to
  `NewParamsHashETagFunc`. -/
  | image (parsers : List Parser) (srv : Server) (etagFunc : HashAlg)
  /-- `imageserver_http.ExpiresHandler`, the duration in hours. -/
  | expires (hdr : HTTPHandler) (hours : Nat)
  /-- `imageserver_http.CacheControlPublicHandler`. -/
  | cacheControlPublic (hdr : HTTPHandler)

/-- The function `newImageHTTPHandler`. -/
def newImageHTTPHandler (cfg : Config) (gomaxprocs : Int) : HTTPHandler :=
  let handler := HTTPHandler.image
    [ Parser.SourcePathParser, Parser.CropParser, Parser.RotateParser,
      Parser.ResizeParser, Parser.FormatParser, Parser.QualityParser,
      Parser.CorrectionParser ]
    (newServer cfg gomaxprocs) HashAlg.sha256
  let handler := HTTPHandler.expires handler (7 * 24)
  let handler := HTTPHandler.cacheControlPublic handler
  handler

/-! ## What the imported library does with these values

The methods below belong to the packages `main.go` imports
(`github.com/pierrre/imageserver/...`); `main.go` only builds the values they
run on. -/

/-- The content of the in-memory cache: encoded images under their keys. -/
abbrev Store := List (List Char × Image)

/-- Modelled from the spec: the capabilities of the imported packages that
`main.go` configures but does not implement, taken as parameters: the codec
registry, the static pipeline and the per-frame pipeline run on a processor
(sections 4.3 and 4.4), the first frame of an animated image, the digest of a
hash constructor in its printed form and the canonical serialization of a
parameter set (section 4.6), and the insertion into the byte-bounded store
with its eviction. -/
structure Library where
  detect : List Nat → Option String
  static : Processor → Image → Params → Except GoError Image
  frames : Processor → Image → Params → Except GoError Image
  firstFrame : Image → Image
  digest : HashAlg → List Char → List Char
  serialize : Params → List Char
  cacheSet : Int → Store → List Char → Image → Store

/-- Modelled from the spec: the hash of a parameter set, "a cryptographic
hash over a canonical byte-serialization of the full Parameter Store"
(section 4.6); it is what `NewParamsHashKeyGenerator` and
`NewParamsHashETagFunc` of the imported library compute from the hash
constructor they are given. -/
def paramsHash (lib : Library) (alg : HashAlg) (params : Params) : List Char :=
  lib.digest alg (lib.serialize params)

/-- Modelled from the spec: the method `Handle` of the imported image
handlers. The static handler runs the static pipeline, the GIF handler the
per-frame pipeline, and the fallback handler is the format dispatcher of
section 4.4: an animated source goes through the per-frame pipeline and "on
any per-frame processing failure" falls back "to the static branch's pipeline
applied to the first frame only"; any other source takes the static branch. -/
def Handler.Handle (lib : Library) : Handler → Image → Params → Except GoError Image
  | Handler.image proc, im, params => lib.static proc im params
  | Handler.gif proc, im, params => lib.frames proc im params
  | Handler.gifFallback hdr fallback, im, params =>
    if im.Format = "gif" then
      match hdr.Handle lib im params with
      | Except.ok out => Except.ok out
      | Except.error _ => fallback.Handle lib (lib.firstFrame im) params
    else fallback.Handle lib im params

/-- The layers of the server stack. -/
inductive Layer where
  | cache
  | limit
  | dispatch
  | source
  deriving DecidableEq, Repr

/-- The state a request runs in: the process, the cache content, and the
layers entered so far, in order. -/
structure World where
  proc : Proc
  store : Store
  trace : List Layer
  deriving DecidableEq, Repr

/-- A handler result as the outcome of the enclosing `Get`. -/
def Outcome.ofExcept : Except GoError Image → Outcome
  | Except.ok im => Outcome.returned (some im) none
  | Except.error err => Outcome.returned none (some err)

/-- Modelled from the spec: the method `Get` of the imported server layers,
one request at a time. The cache layer looks its key up and on a hit returns
the entry without calling the wrapped server, on a miss calls it and stores
a successful result (section 4.6); the limiter calls the wrapped server
(section 4.5, its bound concerns simultaneous requests only); the handler
server gets the image from the wrapped server and passes it to its handler
(section 4.4). The innermost server is `getImgServer` of `main.go`. -/
def Server.Get (lib : Library) (cfg : Config) (fs : FileSystem) :
    Server → Params → World → Outcome × World
  | Server.source, params, w =>
    let r := getImgServer cfg fs lib.detect params w.proc
    (r.1, { w with proc := r.2, trace := w.trace ++ [Layer.source] })
  | Server.handler srv hdr, params, w =>
    match srv.Get lib cfg fs params { w with trace := w.trace ++ [Layer.dispatch] } with
    | (Outcome.returned (some im) none, w1) =>
      (Outcome.ofExcept (hdr.Handle lib im params), w1)
    | r => r
  | Server.limit srv _, params, w =>
    srv.Get lib cfg fs params { w with trace := w.trace ++ [Layer.limit] }
  | Server.cache srv budget keyGenerator, params, w =>
    let key := paramsHash lib keyGenerator params
    match w.store.lookup key with
    | some im => (Outcome.returned (some im) none, { w with trace := w.trace ++ [Layer.cache] })
    | none =>
      match srv.Get lib cfg fs params { w with trace := w.trace ++ [Layer.cache] } with
      | (Outcome.returned (some im) none, w1) =>
        (Outcome.returned (some im) none,
          { w1 with store := lib.cacheSet budget w1.store key im })
      | r => r

/-- The keys the cache layers of a server stack compute for a parameter set,
outermost first. -/
def Server.cacheKeys (lib : Library) : Server → Params → List (List Char)
  | Server.source, _ => []
  | Server.handler srv _, params => srv.cacheKeys lib params
  | Server.limit srv _, params => srv.cacheKeys lib params
  | Server.cache srv _ keyGenerator, params =>
    paramsHash lib keyGenerator params :: srv.cacheKeys lib params

/-- The entity tag the HTTP handler computes for a parameter set; the
wrapping handlers pass the request on. -/
def HTTPHandler.ETag (lib : Library) : HTTPHandler → Params → List Char
  | HTTPHandler.image _ _ etagFunc, params => paramsHash lib etagFunc params
  | HTTPHandler.expires hdr _, params => hdr.ETag lib params
  | HTTPHandler.cacheControlPublic hdr, params => hdr.ETag lib params

/-- The server an HTTP handler calls. -/
def HTTPHandler.server : HTTPHandler → Server
  | HTTPHandler.image _ srv _ => srv
  | HTTPHandler.expires hdr _ => hdr.server
  | HTTPHandler.cacheControlPublic hdr => hdr.server

/-- The process after `os.Open` has succeeded at a path. -/
def Proc.afterOpen (proc : Proc) (path : Path) : Proc :=
  { handles := path :: proc.handles, opened := path :: proc.opened }

/-- The process after `os.Open` and then `ioutil.ReadFile` have succeeded at
a path. -/
def Proc.afterRead (proc : Proc) (path : Path) : Proc :=
  { handles := path :: proc.handles, opened := path :: path :: proc.opened }

/-! ## A sample installation -/

/-- The signature bytes of a PNG file. -/
def pngMagic : List Nat := [137, 80, 78, 71, 13, 10, 26, 10]

/-- The signature bytes of a GIF file. -/
def gifMagic : List Nat := [71, 73, 70, 56, 57, 97]

/-- A codec registry that tells PNG and GIF by their signatures. -/
def sampleDetect (content : List Nat) : Option String :=
  if content.take 8 = pngMagic then some "png"
  else if content.take 6 = gifMagic then some "gif"
  else none

/-- A filesystem with PNG files at `upload/a.png`, `upload/b.jpg`,
`upload/etc/passwd` and, outside the image directory, `secret.png`; a GIF
file at `upload/anim.gif`; a file that is no image at `upload/bad.png`; a
directory at `upload/dir`; a PNG file at `upload/busy.png` that cannot be
read for lack of a file descriptor; a path below the regular file
`upload/a.png`, where opening fails with "not a directory"; a file at
`upload/locked.png` that may not be opened; and nothing anywhere else. -/
def sampleFS : FileSystem :=
  { entry := fun path =>
      if path = "upload/a.png".toList then Entry.regular pngMagic
      else if path = "upload/b.jpg".toList then Entry.regular pngMagic
      else if path = "upload/etc/passwd".toList then Entry.regular pngMagic
      else if path = "secret.png".toList then Entry.regular pngMagic
      else if path = "upload/anim.gif".toList then Entry.regular gifMagic
      else if path = "upload/bad.png".toList then Entry.regular [0, 0]
      else if path = "upload/dir".toList then Entry.directory
      else if path = "upload/busy.png".toList then Entry.regular pngMagic
      else if path = "upload/a.png/x".toList then Entry.openError ENOTDIR
      else if path = "upload/locked.png".toList then Entry.openError EACCES
      else Entry.openError ENOENT
    readFault := fun path =>
      if path = "upload/busy.png".toList then some EMFILE else none }

/-- A process with no file open. -/
def freshProc : Proc := { handles := [], opened := [] }

/-- The parameter set holding only the given source. -/
def sourceParams (source : String) : Params := [("source", Value.str source.toList)]

/-- A library instance whose per-frame pipeline always fails, whose static
pipeline re-tags the image as `png`, and whose store keeps every entry. -/
def sampleLibrary : Library :=
  { detect := sampleDetect
    static := fun _ im _ => Except.ok { im with Format := "png" }
    frames := fun _ _ _ => Except.error GoError.decodeError
    firstFrame := fun im => { im with Data := im.Data.take 6 }
    digest := fun _ text => text
    serialize := fun params => (params.map (fun kv => kv.1.toList)).flatten
    cacheSet := fun _ store key im => (key, im) :: store }

/-- A request state with nothing open, an empty cache and no layer entered. -/
def freshWorld : World := { proc := freshProc, store := [], trace := [] }

/-! ## Facts about paths -/

theorem splitSlash_ne_nil (p : Path) : splitSlash p ≠ [] := by
  cases p with
  | nil => simp [splitSlash]
  | cons c cs =>
    unfold splitSlash
    split
    · simp
    · split <;> simp

theorem splitSlash_append_slash (a b : Path) :
    splitSlash (a ++ '/' :: b) = splitSlash a ++ splitSlash b := by
  induction a with
  | nil => simp [splitSlash]
  | cons c cs ih =>
    by_cases hc : c = '/'
    · simp [splitSlash, hc, ih]
    · have hne := splitSlash_ne_nil cs
      cases hsp : splitSlash cs with
      | nil => exact absurd hsp hne
      | cons h t => simp [splitSlash, hc, ih, hsp]

theorem isRooted_append (d s : Path) (hd : d ≠ []) : isRooted (d ++ s) = isRooted d := by
  cases d with
  | nil => exact absurd rfl hd
  | cons c cs => rfl

theorem foldl_cleanStep_plain (rooted : Bool) (parts kept : List Path)
    (h : ['.', '.'] ∉ parts) :
    parts.foldl (cleanStep rooted) kept
      = kept ++ parts.filter (fun c => decide (c ≠ [] ∧ c ≠ ['.'])) := by
  induction parts generalizing kept with
  | nil => simp
  | cons c cs ih =>
    have hc : c ≠ ['.', '.'] := fun e => h (by simp [e])
    have hcs : ['.', '.'] ∉ cs := fun e => h (by simp [e])
    rw [List.foldl_cons, ih _ hcs]
    by_cases h1 : c = []
    · simp [cleanStep, h1]
    · by_cases h2 : c = ['.']
      · simp [cleanStep, h2]
      · simp [cleanStep, h1, h2, hc]

theorem joinSlash_append (front back : List Path) (hf : front ≠ []) (hb : back ≠ []) :
    joinSlash (front ++ back) = joinSlash front ++ '/' :: joinSlash back := by
  induction front with
  | nil => exact absurd rfl hf
  | cons a rest ih =>
    cases rest with
    | nil =>
      cases back with
      | nil => exact absurd rfl hb
      | cons b bs => simp [joinSlash]
    | cons r rs =>
      have := ih (by simp)
      simp [joinSlash] at this ⊢
      exact this

theorem render_under (rooted : Bool) (front back : List Path) (hf : front ≠ []) :
    render rooted (front ++ back) = render rooted front
      ∨ (render rooted front ++ ['/']) <+: render rooted (front ++ back) := by
  cases back with
  | nil => left; simp
  | cons b bs =>
    right
    have hj := joinSlash_append front (b :: bs) hf (by simp)
    have hne : front ++ b :: bs ≠ [] := by simp
    cases rooted with
    | true =>
      simp only [render, if_true, hj]
      exact ⟨joinSlash (b :: bs), by simp⟩
    | false =>
      simp only [render, hf, hne, if_false, hj, Bool.false_eq_true]
      exact ⟨joinSlash (b :: bs), by simp⟩

/-- The joined path of a non-empty root and a source without a `..` segment
lies under the root, when the root keeps a component after cleaning. -/
theorem Join_underRoot (root source : Path) (hroot : cleanParts root ≠ [])
    (hs : ['.', '.'] ∉ splitSlash source) :
    underRoot root (Join [root, source]) := by
  have hne : root ≠ [] := by
    intro e; apply hroot; subst e; rfl
  have hr : isRooted (root ++ '/' :: source) = isRooted root := isRooted_append _ _ hne
  have hparts : cleanParts (root ++ '/' :: source)
      = cleanParts root
        ++ (splitSlash source).filter (fun c => decide (c ≠ [] ∧ c ≠ ['.'])) := by
    unfold cleanParts
    rw [hr, splitSlash_append_slash, List.foldl_append, foldl_cleanStep_plain _ _ _ hs]
  have hj : Join [root, source] = Clean (root ++ '/' :: source) := by
    simp [Join, hne, joinSlash]
  rw [hj]
  unfold underRoot Clean
  rw [hr, hparts]
  exact render_under _ _ _ hroot

/-! ## The source resolver, case by case -/

theorem getImgServer_of_param_error (cfg : Config) (fs : FileSystem)
    (detect : List Nat → Option String) (params : Params) (proc : Proc) (err : GoError)
    (hs : params.GetString "source" = Except.error err) :
    getImgServer cfg fs detect params proc = (Outcome.returned none (some err), proc) := by
  simp [getImgServer, hs]

theorem getImgServer_of_open_error (cfg : Config) (fs : FileSystem)
    (detect : List Nat → Option String) (params : Params) (proc : Proc) (source : Path)
    (errno : Errno) (hs : params.GetString "source" = Except.ok source)
    (he : fs.entry (Join [cfg.dirName, source]) = Entry.openError errno) :
    getImgServer cfg fs detect params proc
      = if errno = ENOENT then (Outcome.returned none (some (GoError.imageError "404")), proc)
        else (Outcome.panicked (GoError.pathError (Join [cfg.dirName, source]) errno), proc) := by
  simp [getImgServer, hs, osOpen, he, IsNotExist]

theorem getImgServer_of_directory (cfg : Config) (fs : FileSystem)
    (detect : List Nat → Option String) (params : Params) (proc : Proc) (source : Path)
    (hs : params.GetString "source" = Except.ok source)
    (he : fs.entry (Join [cfg.dirName, source]) = Entry.directory) :
    getImgServer cfg fs detect params proc
      = (Outcome.panicked GoError.decodeError, proc.afterOpen (Join [cfg.dirName, source])) := by
  simp [getImgServer, hs, osOpen, he, DecodeConfig, Proc.afterOpen]

theorem getImgServer_of_undecodable (cfg : Config) (fs : FileSystem)
    (detect : List Nat → Option String) (params : Params) (proc : Proc) (source : Path)
    (content : List Nat) (hs : params.GetString "source" = Except.ok source)
    (he : fs.entry (Join [cfg.dirName, source]) = Entry.regular content)
    (hd : detect content = none) :
    getImgServer cfg fs detect params proc
      = (Outcome.panicked GoError.decodeError, proc.afterOpen (Join [cfg.dirName, source])) := by
  simp [getImgServer, hs, osOpen, he, DecodeConfig, hd, Proc.afterOpen]

theorem getImgServer_of_read_fault (cfg : Config) (fs : FileSystem)
    (detect : List Nat → Option String) (params : Params) (proc : Proc) (source : Path)
    (content : List Nat) (format : String) (errno : Errno)
    (hs : params.GetString "source" = Except.ok source)
    (he : fs.entry (Join [cfg.dirName, source]) = Entry.regular content)
    (hd : detect content = some format)
    (hr : fs.readFault (Join [cfg.dirName, source]) = some errno) :
    getImgServer cfg fs detect params proc
      = (Outcome.panicked (GoError.pathError (Join [cfg.dirName, source]) errno),
          proc.afterOpen (Join [cfg.dirName, source])) := by
  simp [getImgServer, hs, osOpen, he, DecodeConfig, hd, ReadFile, hr, Proc.afterOpen]

theorem getImgServer_of_image (cfg : Config) (fs : FileSystem)
    (detect : List Nat → Option String) (params : Params) (proc : Proc) (source : Path)
    (content : List Nat) (format : String)
    (hs : params.GetString "source" = Except.ok source)
    (he : fs.entry (Join [cfg.dirName, source]) = Entry.regular content)
    (hd : detect content = some format)
    (hr : fs.readFault (Join [cfg.dirName, source]) = none) :
    getImgServer cfg fs detect params proc
      = (Outcome.returned (some { Format := format, Data := content }) none,
          proc.afterRead (Join [cfg.dirName, source])) := by
  simp [getImgServer, hs, osOpen, he, DecodeConfig, hd, ReadFile, hr, Proc.afterRead]

/-- The resolver returns an image exactly when the joined path holds a
regular file whose header the codecs recognise and that reads without a
fault; the image then carries the detected format and the file content. -/
theorem getImgServer_image_iff (cfg : Config) (fs : FileSystem)
    (detect : List Nat → Option String) (params : Params) (proc : Proc) (im : Image)
    (proc1 : Proc) :
    getImgServer cfg fs detect params proc = (Outcome.returned (some im) none, proc1)
      ↔ ∃ source, params.GetString "source" = Except.ok source
          ∧ fs.entry (Join [cfg.dirName, source]) = Entry.regular im.Data
          ∧ detect im.Data = some im.Format
          ∧ fs.readFault (Join [cfg.dirName, source]) = none
          ∧ proc1 = proc.afterRead (Join [cfg.dirName, source]) := by
  constructor
  · intro h
    cases hs : params.GetString "source" with
    | error err => rw [getImgServer_of_param_error _ _ _ _ _ _ hs] at h; simp at h
    | ok source =>
      refine ⟨source, rfl, ?_⟩
      cases he : fs.entry (Join [cfg.dirName, source]) with
      | openError errno =>
        rw [getImgServer_of_open_error _ _ _ _ _ _ _ hs he] at h
        split at h <;> simp at h
      | directory => rw [getImgServer_of_directory _ _ _ _ _ _ hs he] at h; simp at h
      | regular content =>
        cases hd : detect content with
        | none => rw [getImgServer_of_undecodable _ _ _ _ _ _ _ hs he hd] at h; simp at h
        | some format =>
          cases hr : fs.readFault (Join [cfg.dirName, source]) with
          | some errno =>
            rw [getImgServer_of_read_fault _ _ _ _ _ _ _ _ _ hs he hd hr] at h; simp at h
          | none =>
            rw [getImgServer_of_image _ _ _ _ _ _ _ _ hs he hd hr] at h
            simp only [Prod.mk.injEq, Outcome.returned.injEq, Option.some.injEq, and_true] at h
            obtain ⟨him, hp⟩ := h
            subst him
            exact ⟨rfl, hd, rfl, hp.symm⟩
  · rintro ⟨source, hs, he, hd, hr, hp⟩
    rw [getImgServer_of_image _ _ _ _ _ _ _ _ hs he hd hr, hp]

/-! ## The source resolver: path safety -/

/-- C1, as stated, fails: with the default directory `upload`, the source
`../secret.png` is not rejected, the resolver returns the image stored at
`secret.png`, which it has opened and which does not lie under `upload`; and
the absolute source `/etc/passwd` is not rejected either, the resolver
returns the file at `upload/etc/passwd`. -/
theorem getImgServer_accepts_dotdot_and_absolute :
    getImgServer defaultConfig sampleFS sampleDetect (sourceParams "../secret.png") freshProc
        = (Outcome.returned (some { Format := "png", Data := pngMagic }) none,
            { handles := ["secret.png".toList],
              opened := ["secret.png".toList, "secret.png".toList] })
      ∧ ¬ underRoot defaultConfig.dirName "secret.png".toList
      ∧ (getImgServer defaultConfig sampleFS sampleDetect (sourceParams "/etc/passwd")
            freshProc).1
          = Outcome.returned (some { Format := "png", Data := pngMagic }) none := by
  refine ⟨by rfl, by decide, by rfl⟩

/-- C1, amended: the resolver rejects no source for its `..` segments or its
leading `/`. For every source it opens no path but
`filepath.Join(dirName, source)`, and it returns an image exactly when a
decodable, readable regular file is there. When `dirName` cleans to at least
one component and the source has no `..` segment (a leading `/` is allowed),
that path lies under `dirName`. -/
theorem getImgServer_path_confinement (cfg : Config) (fs : FileSystem)
    (detect : List Nat → Option String) (params : Params) (proc : Proc) (source : Path)
    (hs : params.GetString "source" = Except.ok source) :
    (∀ path ∈ (getImgServer cfg fs detect params proc).2.opened,
        path ∈ proc.opened ∨ path = Join [cfg.dirName, source])
      ∧ ((∃ im, (getImgServer cfg fs detect params proc).1 = Outcome.returned (some im) none)
          ↔ ∃ content format, fs.entry (Join [cfg.dirName, source]) = Entry.regular content
              ∧ detect content = some format
              ∧ fs.readFault (Join [cfg.dirName, source]) = none)
      ∧ (cleanParts cfg.dirName ≠ [] → ['.', '.'] ∉ splitSlash source →
          underRoot cfg.dirName (Join [cfg.dirName, source])) := by
  refine ⟨?_, ?_, fun hroot hdd => Join_underRoot _ _ hroot hdd⟩
  · cases he : fs.entry (Join [cfg.dirName, source]) with
    | openError errno =>
      rw [getImgServer_of_open_error _ _ _ _ _ _ _ hs he]
      split <;> exact fun path hp => Or.inl hp
    | directory =>
      rw [getImgServer_of_directory _ _ _ _ _ _ hs he]
      intro path hp
      simp [Proc.afterOpen] at hp
      tauto
    | regular content =>
      cases hd : detect content with
      | none =>
        rw [getImgServer_of_undecodable _ _ _ _ _ _ _ hs he hd]
        intro path hp
        simp [Proc.afterOpen] at hp
        tauto
      | some format =>
        cases hr : fs.readFault (Join [cfg.dirName, source]) with
        | some errno =>
          rw [getImgServer_of_read_fault _ _ _ _ _ _ _ _ _ hs he hd hr]
          intro path hp
          simp [Proc.afterOpen] at hp
          tauto
        | none =>
          rw [getImgServer_of_image _ _ _ _ _ _ _ _ hs he hd hr]
          intro path hp
          simp [Proc.afterRead] at hp
          tauto
  · constructor
    · rintro ⟨im, him⟩
      have hfull : getImgServer cfg fs detect params proc
          = (Outcome.returned (some im) none, (getImgServer cfg fs detect params proc).2) :=
        Prod.ext him rfl
      obtain ⟨source1, hs1, he, hd, hr, _⟩ := (getImgServer_image_iff _ _ _ _ _ _ _).1 hfull
      have hsame : source1 = source := by
        rw [hs] at hs1
        exact (Except.ok.inj hs1).symm
      subst hsame
      exact ⟨im.Data, im.Format, he, hd, hr⟩
    · rintro ⟨content, format, he, hd, hr⟩
      exact ⟨_, by rw [getImgServer_of_image _ _ _ _ _ _ _ _ hs he hd hr]⟩

theorem getImgServer_path_confinement_witness :
    (∀ path ∈ (getImgServer defaultConfig sampleFS sampleDetect (sourceParams "/etc/passwd")
          freshProc).2.opened,
        path ∈ freshProc.opened ∨ path = "upload/etc/passwd".toList)
      ∧ underRoot defaultConfig.dirName "upload/etc/passwd".toList :=
  have h := getImgServer_path_confinement defaultConfig sampleFS sampleDetect
    (sourceParams "/etc/passwd") freshProc "/etc/passwd".toList (by rfl)
  ⟨h.1, h.2.2 (by decide) (by decide)⟩

/-! ## The source resolver: results -/

/-- C2: when the source parameter is a string and `os.Open` finds nothing at
`filepath.Join(dirName, source)` (it fails with the not-exist error), the
resolver returns no image and the `ImageError` with message `404`; it does
not panic, and the process is left as it was. -/
theorem getImgServer_missing_is_404 (cfg : Config) (fs : FileSystem)
    (detect : List Nat → Option String) (params : Params) (proc : Proc) (source : Path)
    (hs : params.GetString "source" = Except.ok source)
    (he : fs.entry (Join [cfg.dirName, source]) = Entry.openError ENOENT) :
    getImgServer cfg fs detect params proc
      = (Outcome.returned none (some (GoError.imageError "404")), proc) := by
  rw [getImgServer_of_open_error _ _ _ _ _ _ _ hs he]
  simp

theorem getImgServer_missing_is_404_witness :
    getImgServer defaultConfig sampleFS sampleDetect (sourceParams "missing.jpg") freshProc
      = (Outcome.returned none (some (GoError.imageError "404")), freshProc) :=
  getImgServer_missing_is_404 defaultConfig sampleFS sampleDetect (sourceParams "missing.jpg")
    freshProc "missing.jpg".toList (by rfl) (by rfl)

/-- C3, as stated, fails: the resolver panics on a file whose header is no
image, on a directory, on an open error other than not-exist, and on a read
error. -/
theorem getImgServer_panics_on_other_failures :
    (getImgServer defaultConfig sampleFS sampleDetect (sourceParams "bad.png") freshProc).1
        = Outcome.panicked GoError.decodeError
      ∧ (getImgServer defaultConfig sampleFS sampleDetect (sourceParams "dir") freshProc).1
        = Outcome.panicked GoError.decodeError
      ∧ (getImgServer defaultConfig sampleFS sampleDetect (sourceParams "locked.png")
            freshProc).1
        = Outcome.panicked (GoError.pathError "upload/locked.png".toList EACCES)
      ∧ (getImgServer defaultConfig sampleFS sampleDetect (sourceParams "busy.png")
            freshProc).1
        = Outcome.panicked (GoError.pathError "upload/busy.png".toList EMFILE) := by
  refine ⟨by rfl, by rfl, by rfl, by rfl⟩

/-- C3, amended: the resolver panics exactly on the failures other than a
missing source parameter and a missing file: an open error that is not
not-exist, a directory, a file whose header is not decodable, a read error.
The only errors it returns as values are the parameter error of a source
that is unset or no string, and the `404` image error. -/
theorem getImgServer_panics_iff (cfg : Config) (fs : FileSystem)
    (detect : List Nat → Option String) (params : Params) (proc : Proc) :
    ((∃ err, (getImgServer cfg fs detect params proc).1 = Outcome.panicked err)
        ↔ ∃ source, params.GetString "source" = Except.ok source
            ∧ ((∃ errno, fs.entry (Join [cfg.dirName, source]) = Entry.openError errno
                  ∧ errno ≠ ENOENT)
              ∨ fs.entry (Join [cfg.dirName, source]) = Entry.directory
              ∨ ∃ content, fs.entry (Join [cfg.dirName, source]) = Entry.regular content
                  ∧ (detect content = none
                    ∨ fs.readFault (Join [cfg.dirName, source]) ≠ none)))
      ∧ ∀ im err, (getImgServer cfg fs detect params proc).1 = Outcome.returned im (some err) →
          im = none
            ∧ (params.GetString "source" = Except.error err
              ∨ err = GoError.imageError "404") := by
  cases hs : params.GetString "source" with
  | error err0 =>
    rw [getImgServer_of_param_error _ _ _ _ _ _ hs]
    simp
  | ok source =>
    cases he : fs.entry (Join [cfg.dirName, source]) with
    | openError errno =>
      rw [getImgServer_of_open_error _ _ _ _ _ _ _ hs he]
      by_cases hn : errno = ENOENT
      · simp [hn, he]
      · simp [hn, he]
    | directory =>
      rw [getImgServer_of_directory _ _ _ _ _ _ hs he]
      simp [he]
    | regular content =>
      cases hd : detect content with
      | none =>
        rw [getImgServer_of_undecodable _ _ _ _ _ _ _ hs he hd]
        simp [he, hd]
      | some format =>
        cases hr : fs.readFault (Join [cfg.dirName, source]) with
        | some errno =>
          rw [getImgServer_of_read_fault _ _ _ _ _ _ _ _ _ hs he hd hr]
          simp [he, hr]
        | none =>
          rw [getImgServer_of_image _ _ _ _ _ _ _ _ hs he hd hr]
          simp [he, hd, hr]

/-- C4: whenever the resolver succeeds, the file at
`filepath.Join(dirName, source)` is a regular file, the image's `Data` is its
complete content and its `Format` is what the codecs detect from that
content; and every other successful call whose file has the same bytes,
under whatever name, returns an equal image. -/
theorem getImgServer_content_and_format (cfg : Config) (fs : FileSystem)
    (detect : List Nat → Option String) (params : Params) (proc : Proc) (im : Image)
    (proc1 : Proc)
    (h : getImgServer cfg fs detect params proc = (Outcome.returned (some im) none, proc1)) :
    ∃ source content, params.GetString "source" = Except.ok source
      ∧ fs.entry (Join [cfg.dirName, source]) = Entry.regular content
      ∧ im.Data = content
      ∧ detect content = some im.Format
      ∧ ∀ (params2 : Params) (source2 : Path) (proc2 proc3 : Proc) (im2 : Image),
          params2.GetString "source" = Except.ok source2 →
          fs.entry (Join [cfg.dirName, source2]) = Entry.regular content →
          getImgServer cfg fs detect params2 proc2
            = (Outcome.returned (some im2) none, proc3) →
          im2 = im := by
  obtain ⟨source, hs, he, hd, _, _⟩ := (getImgServer_image_iff _ _ _ _ _ _ _).1 h
  refine ⟨source, im.Data, hs, he, rfl, hd, ?_⟩
  intro params2 source2 proc2 proc3 im2 hs2 he2 h2
  obtain ⟨source3, hs3, he3, hd3, _, _⟩ := (getImgServer_image_iff _ _ _ _ _ _ _).1 h2
  have hsame : source3 = source2 := by
    rw [hs2] at hs3
    exact (Except.ok.inj hs3).symm
  subst hsame
  have hdata : im2.Data = im.Data := by
    rw [he2] at he3
    exact (Entry.regular.inj he3).symm
  have hformat : im2.Format = im.Format := by
    rw [hdata, hd] at hd3
    exact (Option.some.inj hd3).symm
  cases im
  cases im2
  simp_all

theorem getImgServer_content_and_format_witness :
    ∃ source content, (sourceParams "a.png").GetString "source" = Except.ok source
      ∧ sampleFS.entry (Join [defaultConfig.dirName, source]) = Entry.regular content
      ∧ pngMagic = content
      ∧ sampleDetect content = some "png"
      ∧ ∀ (params2 : Params) (source2 : Path) (proc2 proc3 : Proc) (im2 : Image),
          params2.GetString "source" = Except.ok source2 →
          sampleFS.entry (Join [defaultConfig.dirName, source2]) = Entry.regular content →
          getImgServer defaultConfig sampleFS sampleDetect params2 proc2
            = (Outcome.returned (some im2) none, proc3) →
          im2 = { Format := "png", Data := pngMagic } :=
  getImgServer_content_and_format defaultConfig sampleFS sampleDetect (sourceParams "a.png")
    freshProc { Format := "png", Data := pngMagic }
    (freshProc.afterRead "upload/a.png".toList) (by rfl)

/-- C10 fails on the code: the call for the existing image `a.png` returns
the image and leaves the handle it opened at `upload/a.png` in the set of
open handles, which was empty before the call. -/
theorem getImgServer_leaves_handle_open :
    getImgServer defaultConfig sampleFS sampleDetect (sourceParams "a.png") freshProc
        = (Outcome.returned (some { Format := "png", Data := pngMagic }) none,
            { handles := ["upload/a.png".toList],
              opened := ["upload/a.png".toList, "upload/a.png".toList] })
      ∧ (getImgServer defaultConfig sampleFS sampleDetect (sourceParams "a.png")
            freshProc).2.handles ≠ freshProc.handles := by
  refine ⟨by rfl, by decide⟩

/-! ## The server stack -/

theorem Server.cache_ne (srv : Server) (budget : Int) (keyGenerator : HashAlg) :
    Server.cache srv budget keyGenerator ≠ srv := by
  intro h
  have hsize := congrArg sizeOf h
  simp at hsize
  omega

/-- C9: `newServerCacheMemory(srv)` is `srv` itself exactly when `flagCache`
is at most 0; for a positive `flagCache` it is a cache server around `srv`
whose in-memory store has that byte budget. -/
theorem newServerCacheMemory_spec (cfg : Config) (srv : Server) :
    (newServerCacheMemory cfg srv = srv ↔ cfg.flagCache ≤ 0)
      ∧ (0 < cfg.flagCache →
          newServerCacheMemory cfg srv = Server.cache srv cfg.flagCache HashAlg.sha256) := by
  constructor
  · constructor
    · intro h
      by_contra hpos
      simp only [newServerCacheMemory, hpos, if_false] at h
      exact Server.cache_ne _ _ _ h
    · intro hle
      simp [newServerCacheMemory, hle]
  · intro hpos
    have hnot : ¬ cfg.flagCache ≤ 0 := by omega
    simp [newServerCacheMemory, hnot]

theorem newServerCacheMemory_spec_witness :
    (newServerCacheMemory defaultConfig Server.source = Server.source
        ↔ defaultConfig.flagCache ≤ 0)
      ∧ newServerCacheMemory defaultConfig Server.source
        = Server.cache Server.source (128 * (1 <<< 20)) HashAlg.sha256 :=
  ⟨(newServerCacheMemory_spec defaultConfig Server.source).1,
    (newServerCacheMemory_spec defaultConfig Server.source).2 (by decide)⟩

/-- C8: in the static and in the animated pipeline built by `newServerImage`
the processor list is crop, then rotate, then resize, and both resize
processors carry `MaxWidth = maxWidth` and `MaxHeight = maxHeight`. -/
theorem newServerImage_pipelines (cfg : Config) (srv : Server) :
    ∃ animated basic inner,
      newServerImage cfg srv
          = Server.handler srv
              (Handler.gifFallback (Handler.gif animated) (Handler.image inner))
        ∧ inner = Processor.correction basic true
        ∧ basic.stages = [Stage.crop, Stage.rotate, Stage.resize]
        ∧ animated.stages = [Stage.crop, Stage.rotate, Stage.resize]
        ∧ basic.resizeBounds = [(cfg.maxWidth, cfg.maxHeight)]
        ∧ animated.resizeBounds = [(cfg.maxWidth, cfg.maxHeight)] :=
  ⟨gifProcessors cfg, basicProcessors cfg, _, rfl, rfl, rfl, rfl, rfl, rfl⟩

/-- C6: with a positive cache budget, `newServer` is the cache server around
the limiter around the handler server around the source resolver; and a
request whose key is in the cache is answered from it with only the cache
layer entered, the limiter, the dispatcher and the resolver not reached, no
file opened and the store unchanged. -/
theorem newServer_layers (lib : Library) (cfg : Config) (fs : FileSystem)
    (gomaxprocs : Int) (hpos : 0 < cfg.flagCache) :
    newServer cfg gomaxprocs
        = Server.cache
            (Server.limit (Server.handler Server.source (gifHdr cfg)) (gomaxprocs * 2))
            cfg.flagCache HashAlg.sha256
      ∧ ∀ (params : Params) (w : World) (im : Image),
          w.store.lookup (paramsHash lib HashAlg.sha256 params) = some im →
          (newServer cfg gomaxprocs).Get lib cfg fs params w
            = (Outcome.returned (some im) none,
                { w with trace := w.trace ++ [Layer.cache] }) := by
  have hnot : ¬ cfg.flagCache ≤ 0 := by omega
  have hsrv : newServer cfg gomaxprocs
      = Server.cache
          (Server.limit (Server.handler Server.source (gifHdr cfg)) (gomaxprocs * 2))
          cfg.flagCache HashAlg.sha256 := by
    simp [newServer, newServerCacheMemory, newServerLimit, newServerImage, hnot]
  refine ⟨hsrv, ?_⟩
  intro params w im hhit
  rw [hsrv]
  simp [Server.Get, hhit]

theorem newServer_layers_witness :
    (newServer defaultConfig 4).Get sampleLibrary defaultConfig sampleFS (sourceParams "a.png")
        { freshWorld with
          store := [("source".toList, { Format := "png", Data := [1, 2, 3] })] }
      = (Outcome.returned (some { Format := "png", Data := [1, 2, 3] }) none,
          { proc := freshProc
            store := [("source".toList, { Format := "png", Data := [1, 2, 3] })]
            trace := [Layer.cache] }) :=
  (newServer_layers sampleLibrary defaultConfig sampleFS 4 (by decide)).2
    (sourceParams "a.png")
    { freshWorld with store := [("source".toList, { Format := "png", Data := [1, 2, 3] })] }
    { Format := "png", Data := [1, 2, 3] } (by rfl)

/-- C7: when the wrapped server delivers a GIF image on which the per-frame
pipeline of `newServerImage` fails, the dispatcher does not return that
failure: its result is the result of the static handler `basicHdr` on the
first frame of the image, an image whenever the static pipeline produces
one. -/
theorem newServerImage_gif_fallback (lib : Library) (cfg : Config) (fs : FileSystem)
    (srv : Server) (params : Params) (w w1 : World) (im : Image) (err : GoError)
    (hsrc : srv.Get lib cfg fs params { w with trace := w.trace ++ [Layer.dispatch] }
      = (Outcome.returned (some im) none, w1))
    (hgif : im.Format = "gif")
    (hfail : lib.frames (gifProcessors cfg) im params = Except.error err) :
    (newServerImage cfg srv).Get lib cfg fs params w
        = (Outcome.ofExcept ((basicHdr cfg).Handle lib (lib.firstFrame im) params), w1)
      ∧ ∀ out, (basicHdr cfg).Handle lib (lib.firstFrame im) params = Except.ok out →
          (newServerImage cfg srv).Get lib cfg fs params w
            = (Outcome.returned (some out) none, w1) := by
  have hget : (newServerImage cfg srv).Get lib cfg fs params w
      = (Outcome.ofExcept ((basicHdr cfg).Handle lib (lib.firstFrame im) params), w1) := by
    simp [newServerImage, Server.Get, hsrc, gifHdr, Handler.Handle, hgif, hfail]
  refine ⟨hget, ?_⟩
  intro out hout
  rw [hget, hout]
  rfl

theorem newServerImage_gif_fallback_witness :
    (newServerImage defaultConfig Server.source).Get sampleLibrary defaultConfig sampleFS
        (sourceParams "anim.gif") freshWorld
      = (Outcome.returned (some { Format := "png", Data := gifMagic }) none,
          { proc := freshProc.afterRead "upload/anim.gif".toList
            store := []
            trace := [Layer.dispatch, Layer.source] }) :=
  (newServerImage_gif_fallback sampleLibrary defaultConfig sampleFS Server.source
    (sourceParams "anim.gif") freshWorld
    { proc := freshProc.afterRead "upload/anim.gif".toList
      store := []
      trace := [Layer.dispatch, Layer.source] }
    { Format := "gif", Data := gifMagic } GoError.decodeError
    (by rfl) (by rfl) (by rfl)).2
    { Format := "png", Data := gifMagic } (by rfl)

/-! ## The HTTP handler -/

/-- C5: for every parameter set, every key a cache layer of the server
computes equals the entity tag the HTTP handler computes, both being the
SHA-256 params hash; with a positive cache budget there is exactly one such
key. -/
theorem etag_eq_cache_key (lib : Library) (cfg : Config) (gomaxprocs : Int)
    (params : Params) :
    (newImageHTTPHandler cfg gomaxprocs).ETag lib params
        = paramsHash lib HashAlg.sha256 params
      ∧ (∀ key ∈ (newImageHTTPHandler cfg gomaxprocs).server.cacheKeys lib params,
          key = (newImageHTTPHandler cfg gomaxprocs).ETag lib params)
      ∧ (0 < cfg.flagCache →
          (newImageHTTPHandler cfg gomaxprocs).server.cacheKeys lib params
            = [(newImageHTTPHandler cfg gomaxprocs).ETag lib params]) := by
  by_cases hle : cfg.flagCache ≤ 0
  · have hnot : ¬ 0 < cfg.flagCache := by omega
    simp [newImageHTTPHandler, HTTPHandler.ETag, HTTPHandler.server, newServer,
      newServerCacheMemory, newServerLimit, newServerImage, Server.cacheKeys, hle, hnot]
  · simp [newImageHTTPHandler, HTTPHandler.ETag, HTTPHandler.server, newServer,
      newServerCacheMemory, newServerLimit, newServerImage, Server.cacheKeys, hle]

theorem etag_eq_cache_key_witness :
    (newImageHTTPHandler defaultConfig 4).server.cacheKeys sampleLibrary
        (sourceParams "a.png")
      = [(newImageHTTPHandler defaultConfig 4).ETag sampleLibrary (sourceParams "a.png")] :=
  (etag_eq_cache_key sampleLibrary defaultConfig 4 (sourceParams "a.png")).2.2 (by decide)

end ImageServer
